import Mathlib

/-
Verification of the API Structure Explorer & Load Tester (src/app.py).

The development shallowly embeds the Python source: JSON documents (as
decoded by json.load) become an inductive type, the dict/list operations
the source performs become total Lean functions returning Except String
(the error carrying the Python exception kind) wherever the Python code
can raise, and the core functions extract_variables, parse_postman,
parse_openapi, the module-level shape dispatch, load_test and
plot_results are translated line by line.  Machine reals do not occur:
latencies and rates are modeled as rationals, which is exact for the
arithmetic the source performs on them.
-/

set_option maxHeartbeats 1000000

namespace ApiCounter

/-! ### Strings: ordering and set modeling

Python compares strings lexicographically by code point, and the source
uses sorted(list(set_of_strings)).  We model a Python set of strings as
its canonically sorted duplicate-free list (a set is determined by its
members; sorted() then yields exactly this list). -/

/-- Lexicographic code-point comparison of character lists, the order
Python's sorted() uses on strings. -/
def strLeb : List Char → List Char → Bool
  | [], _ => true
  | _ :: _, [] => false
  | a :: as, b :: bs => if a = b then strLeb as bs else decide (a < b)

/-- The relation form of strLeb, used to state sortedness. -/
def StrLe (a b : String) : Prop := strLeb a.data b.data = true

/-- Insert a string into a sorted duplicate-free list, keeping it sorted
and duplicate-free (the effect of adding one element to a Python set,
viewed through the canonical sorted listing). -/
def setInsert (x : String) : List String → List String
  | [] => [x]
  | y :: ys =>
      if x = y then y :: ys
      else if strLeb x.data y.data then x :: y :: ys
      else y :: setInsert x ys

/-- The Python set of the strings in l, listed in sorted order: this is
what sorted(list(set(l))) evaluates to. -/
def sortedSetOf (l : List String) : List String := l.foldr setInsert []

/-- set.update: add every member of l to the set s. -/
def setUnion (l : List String) (s : List String) : List String :=
  l.foldr setInsert s

/-! ### The variable extractor (src/app.py lines 20-21)

re.findall applied to the double-brace pattern with a lazy inner group:
scan left to right; at each opening double brace take the shortest
closing double brace on the same line (the lazy dot matches any
character except newline); matches are non-overlapping; after a failed
match attempt the scan resumes one character further. -/

/-- Lazy search for the closing double brace: given the text following
an opening double brace, return the captured group and the rest of the
text after the closing braces, or none when no closing double brace
occurs before a newline or the end of the text. -/
def findClose : List Char → Option (List Char × List Char)
  | '\x7d' :: '\x7d' :: rest => some ([], rest)
  | c :: rest =>
      if c = '\x0a' then none
      else
        match findClose rest with
        | some (content, r) => some (c :: content, r)
        | none => none
  | [] => none

/-- One scanning pass of re.findall for the double-brace pattern.  The
fuel argument only serves to make the recursion structural; every step
strictly shortens the text, so fuel equal to the text length (as passed
by findall) never runs out. -/
def findallAux : Nat → List Char → List (List Char)
  | 0, _ => []
  | _ + 1, [] => []
  | fuel + 1, '\x7b' :: '\x7b' :: rest =>
      match findClose rest with
      | some (content, r) => content :: findallAux fuel r
      | none => findallAux fuel ('\x7b' :: rest)
  | fuel + 1, _ :: rest => findallAux fuel rest

/-- All non-overlapping lazy double-brace matches in the text, in order
of occurrence. -/
def findall (l : List Char) : List (List Char) := findallAux l.length l

/-- extract_variables on a string input: re.findall of the double-brace
pattern, a list of the captured names in order of occurrence, with
duplicates preserved exactly as re.findall returns them. -/
def extract_variables (s : String) : List String :=
  (findall s.data).map (fun cs => String.mk cs)

/-! ### JSON documents and the Python operations the source applies -/

/-- A JSON value as produced by json.load.  Object fields keep the
document's key order; documents decoded by json.load have unique keys
within one object (json.load keeps the last duplicate), so lookups below
may search from the front. -/
inductive Json where
  | null : Json
  | bool : Bool → Json
  | num : Int → Json
  | str : String → Json
  | arr : List Json → Json
  | obj : List (String × Json) → Json

mutual

/-- A size measure on JSON values, used as recursion fuel below. -/
def jSize : Json → Nat
  | .null => 1
  | .bool _ => 1
  | .num _ => 1
  | .str _ => 1
  | .arr xs => 1 + jSizeList xs
  | .obj kvs => 1 + jSizeKvs kvs

def jSizeList : List Json → Nat
  | [] => 0
  | x :: xs => 1 + jSize x + jSizeList xs

def jSizeKvs : List (String × Json) → Nat
  | [] => 0
  | kv :: rest => 1 + jSize kv.2 + jSizeKvs rest

end

/-- First-occurrence key lookup in an object's field list. -/
def jLookup (k : String) : List (String × Json) → Option Json
  | [] => none
  | (k', v) :: rest => if k' = k then some v else jLookup k rest

/-- Key presence test on an object's field list. -/
def containsKey (k : String) (kvs : List (String × Json)) : Bool :=
  (jLookup k kvs).isSome

/-- dict.get(k, d) on an object known to be a dict. -/
def jGetD (kvs : List (String × Json)) (k : String) (d : Json) : Json :=
  (jLookup k kvs).getD d

/-- x.get(k, d): AttributeError when x is not a dict. -/
def pyGetD (j : Json) (k : String) (d : Json) : Except String Json :=
  match j with
  | .obj kvs => .ok (jGetD kvs k d)
  | _ => .error "AttributeError: get"

/-- x[k] for a string k: dict lookup with KeyError, TypeError otherwise. -/
def pySubscript (j : Json) (k : String) : Except String Json :=
  match j with
  | .obj kvs =>
      match jLookup k kvs with
      | some v => .ok v
      | none => .error "KeyError"
  | _ => .error "TypeError: not subscriptable"

/-- x[0]: list indexing; a string yields its first character as a
one-character string; a dict raises KeyError since 0 is never a key of a
decoded JSON object; other values raise TypeError. -/
def pyIndexZero (j : Json) : Except String Json :=
  match j with
  | .arr [] => .error "IndexError"
  | .arr (x :: _) => .ok x
  | .str s =>
      match s.data with
      | [] => .error "IndexError"
      | c :: _ => .ok (.str (String.mk [c]))
  | .obj _ => .error "KeyError"
  | _ => .error "TypeError: not subscriptable"

/-- Python iteration (for x in j): a list yields its elements, a string
yields its characters as one-character strings, a dict yields its keys;
other values raise TypeError. -/
def pyIterItems : Json → Except String (List Json)
  | .arr xs => .ok xs
  | .str s => .ok (s.data.map (fun c => Json.str (String.mk [c])))
  | .obj kvs => .ok (kvs.map (fun kv => Json.str kv.1))
  | _ => .error "TypeError: not iterable"

/-- needle occurs at the start of hay. -/
def listStarts : List Char → List Char → Bool
  | [], _ => true
  | _ :: _, [] => false
  | a :: as, b :: bs => a = b && listStarts as bs

/-- Substring occurrence test, the meaning of (s1 in s2) on strings. -/
def strContainsSub : List Char → List Char → Bool
  | needle, [] => needle.isEmpty
  | needle, c :: rest => listStarts needle (c :: rest) || strContainsSub needle rest

/-- Python equality of a decoded JSON value with a string.  The source
only ever compares elements against a string literal (the left operand
of its membership tests), and a Python string equals no value of another
type, so no deep recursion is involved. -/
def jsonStrEq (x : Json) (s : String) : Bool :=
  match x with
  | .str t => t = s
  | _ => false

/-- The Python membership test (key in j): key lookup on a dict, element
membership on a list, substring test on a string; TypeError otherwise. -/
def pyContains (key : String) : Json → Except String Bool
  | .obj kvs => .ok (containsKey key kvs)
  | .arr xs => .ok (xs.any (fun x => jsonStrEq x key))
  | .str s => .ok (strContainsSub key.data s.data)
  | _ => .error "TypeError: argument of type int is not iterable"

/-- Python truthiness of a decoded JSON value, as tested by (if example:). -/
def pyTruthy : Json → Bool
  | .null => false
  | .bool b => b
  | .num n => decide (n ≠ 0)
  | .str s => !s.data.isEmpty
  | .arr xs => !xs.isEmpty
  | .obj kvs => !kvs.isEmpty

/-- Python str() of a decoded JSON value, as interpolated by f-strings.
Faithful on strings (the only case the reachable documents exercise);
for the remaining cases the exact CPython rendering of containers and
numbers is approximated, which no claim depends on. -/
def pyStr : Json → String
  | .str s => s
  | .null => "None"
  | .bool true => "True"
  | .bool false => "False"
  | .num n => toString n
  | .arr _ => "[...]"
  | .obj _ => "..."

/-- str.upper() for the method names of a flat specification; faithful
for ASCII, which covers HTTP method keys. -/
def pyUpper (s : String) : String := String.mk (s.data.map Char.toUpper)

/-- Using a decoded JSON value as a dict key, for folder_api_map[tag]:
strings map to themselves, other hashable values are rendered (their
rendering never collides on reachable documents), and unhashable lists
or dicts raise TypeError. -/
def pyDictKey : Json → Except String String
  | .str s => .ok s
  | .null => .ok "None"
  | .bool true => .ok "True"
  | .bool false => .ok "False"
  | .num n => .ok (toString n)
  | .arr _ => .error "TypeError: unhashable type"
  | .obj _ => .error "TypeError: unhashable type"

/-- Indentation padding used by json.dumps(x, indent=2). -/
def pad (n : Nat) : String := String.mk (List.replicate n ' ')

/-- Minimal JSON string quoting (quote, backslash and newline escapes);
the remaining json.dumps escapes are approximated, which no claim
depends on. -/
def jstrQuote (s : String) : String :=
  let esc := s.data.foldr
    (fun c acc =>
      if c = '"' then '\\' :: '"' :: acc
      else if c = '\\' then '\\' :: '\\' :: acc
      else if c = '\x0a' then '\\' :: 'n' :: acc
      else c :: acc) []
  String.mk ('"' :: esc) ++ "\""

/-- json.dumps(j, indent=2).  The fuel only makes the recursion
structural; jSize j (as passed by jdumps) suffices. -/
def jdumpsAux : Nat → Json → Nat → String
  | 0, _, _ => ""
  | fuel + 1, j, ind =>
      match j with
      | .null => "null"
      | .bool true => "true"
      | .bool false => "false"
      | .num n => toString n
      | .str s => jstrQuote s
      | .arr [] => "[]"
      | .arr (x :: xs) =>
          let parts := (x :: xs).map (fun e => pad (ind + 2) ++ jdumpsAux fuel e (ind + 2))
          "[\x0a" ++ String.intercalate ",\x0a" parts ++ "\x0a" ++ pad ind ++ "]"
      | .obj [] => "\x7b\x7d"
      | .obj (kv :: kvs) =>
          let parts := (kv :: kvs).map
            (fun e => pad (ind + 2) ++ jstrQuote e.1 ++ ": " ++ jdumpsAux fuel e.2 (ind + 2))
          "\x7b\x0a" ++ String.intercalate ",\x0a" parts ++ "\x0a" ++ pad ind ++ "\x7d"

def jdumps (j : Json) : String := jdumpsAux (jSize j) j 0

/-- extract_variables on an arbitrary value: non-string input yields no
matches (the isinstance guard on line 21). -/
def extract_variables_json : Json → List String
  | .str s => extract_variables s
  | _ => []

/-! ### The endpoint catalog -/

/-- One api_info record as built by the parsers: name and path hold the
raw values taken from the document, vars the list stored under the
"variables" key (that Python identifier is reserved in Lean), body the
raw body when one was captured. -/
structure ApiInfo where
  name : Json
  path : Json
  vars : List String
  body : Option Json

/-- folder_api_map: a defaultdict(list) preserving key insertion order,
modeled as an association list in that order. -/
abbrev Fam := List (String × List ApiInfo)

/-- Append to the list held under key k, creating the key at the end on
first use — exactly defaultdict(list) behavior under insertion order. -/
def dmapAppend (fam : Fam) (k : String) (v : ApiInfo) : Fam :=
  match fam with
  | [] => [(k, [v])]
  | (k', vs) :: rest =>
      if k' = k then (k', vs ++ [v]) :: rest
      else (k', vs) :: dmapAppend rest k v

/-- All endpoints of a catalog in iteration order. -/
def apisOf (fam : Fam) : List ApiInfo := (fam.map (fun g => g.2)).flatten

/-- The sum of the per-group sequence lengths. -/
def sumLens (fam : Fam) : Nat := (fam.map (fun g => g.2.length)).sum

/-- The mutable parse state: folder_api_map, all_variables, total. -/
structure PState where
  fam : Fam
  all_variables : List String
  total : Nat

def initPState : PState := ⟨[], [], 0⟩

/-! ### parse_postman (src/app.py lines 23-55) -/

/-- Lines 36-45 of the leaf branch: from the field list of a request
object, the raw url value, the placeholder names found in the header
values, and the captured raw body when one is present.  Every step
mirrors one source line, including the spots where the Python can
raise. -/
def leafData (rkvs : List (String × Json)) :
    Except String (Json × List String × Option Json) :=
  match pyGetD (jGetD rkvs "url" (Json.obj [])) "raw" (Json.str "") with
  | .error e => .error e
  | .ok url =>
    match pyIterItems (jGetD rkvs "header" (Json.arr [])) with
    | .error e => .error e
    | .ok hs =>
      match hs.mapM (fun h => pyGetD h "value" (Json.str "")) with
      | .error e => .error e
      | .ok headerVals =>
        let headerVars := (headerVals.map extract_variables_json).flatten
        let body := jGetD rkvs "body" (Json.obj [])
        match pyContains "raw" body with
        | .error e => .error e
        | .ok hasRaw =>
          if hasRaw then
            match pyGetD body "raw" (Json.str "") with
            | .error e => .error e
            | .ok rawBody => .ok (url, headerVars, some rawBody)
          else .ok (url, headerVars, none)

/-- The leaf branch of traverse (lines 32-49): build one api_info from a
request item whose field list is kvs and append it under the current
folder path.  The variables set collects the placeholders of the raw
url, the header values and the raw body, and is stored sorted. -/
def processLeaf (kvs : List (String × Json)) (path : String) (st : PState) :
    Except String PState :=
  match jLookup "request" kvs with
  | none => .error "KeyError: request"
  | some (.obj rkvs) =>
      match leafData rkvs with
      | .error e => .error e
      | .ok (url, headerVars, bodyData) =>
          let name := jGetD kvs "name" (Json.str "Unnamed")
          let vs := extract_variables_json url ++ headerVars ++
            (bodyData.map extract_variables_json).getD []
          let api : ApiInfo := ⟨name, url, sortedSetOf vs, bodyData⟩
          .ok ⟨dmapAppend st.fam path api, setUnion vs st.all_variables, st.total + 1⟩
  | some _ => .error "AttributeError: get"

/-- The recursive walk of traverse (lines 28-52).  A request item is a
leaf; otherwise an item holding an "item" key is a folder whose name
(accessed without a default on line 51) extends the group path and whose
children are walked in place; any other item is skipped.  The fuel makes
the recursion structural: every recursive call descends either to the
tail of the item list or into a strict subterm, so fuel at least
jSizeList of the item list plus one (as passed by parse_postman) never
runs out.  Iterating a non-list "item" value is inlined to its immediate
Python outcome: empty iterables contribute nothing, non-empty ones raise
AttributeError on their first element (a string, which has no .get), and
non-iterables raise TypeError. -/
def traverseAux : Nat → List Json → String → PState → Except String PState
  | 0, _, _, _ => .error "RecursionError"
  | _ + 1, [], _, st => .ok st
  | fuel + 1, item :: rest, path, st =>
      match item with
      | .obj kvs =>
          if containsKey "request" kvs then
            match processLeaf kvs path st with
            | .error e => .error e
            | .ok st' => traverseAux fuel rest path st'
          else if containsKey "item" kvs then
            match jLookup "name" kvs with
            | none => .error "KeyError: name"
            | some nm =>
                match jLookup "item" kvs with
                | some (.arr children) =>
                    match traverseAux fuel children
                        (if path = "" then pyStr nm else path ++ "/" ++ pyStr nm) st with
                    | .error e => .error e
                    | .ok st' => traverseAux fuel rest path st'
                | some (.str s) =>
                    if s.data.isEmpty then traverseAux fuel rest path st
                    else .error "AttributeError: get"
                | some (.obj []) => traverseAux fuel rest path st
                | some (.obj (_ :: _)) => .error "AttributeError: get"
                | _ => .error "TypeError: not iterable"
          else traverseAux fuel rest path st
      | _ => .error "AttributeError: get"

/-- parse_postman (lines 23-55): walk data.get("item", []) from an empty
state and return (folder_api_map, total, all_variables).  Iterating a
non-list "item" value is inlined as in traverseAux. -/
def parse_postman (data : Json) : Except String (Fam × Nat × List String) :=
  match pyGetD data "item" (Json.arr []) with
  | .error e => .error e
  | .ok itemsJ =>
      match itemsJ with
      | .arr xs =>
          match traverseAux (jSizeList xs + 1) xs "" initPState with
          | .error e => .error e
          | .ok st => .ok (st.fam, st.total, st.all_variables)
      | .str s =>
          if s.data.isEmpty then .ok (initPState.fam, initPState.total, initPState.all_variables)
          else .error "AttributeError: get"
      | .obj [] => .ok (initPState.fam, initPState.total, initPState.all_variables)
      | .obj (_ :: _) => .error "AttributeError: get"
      | _ => .error "TypeError: not iterable"

/-! ### parse_openapi (src/app.py lines 57-82) -/

/-- The body of the inner loop (lines 64-80): one (method, operation)
pair under one path key.  The first access details.get raises
AttributeError when the operation value is not a dict. -/
def processOperation (endpoint : String) (method : String) (details : Json)
    (st : PState) : Except String PState :=
  match details with
  | .obj dkvs =>
      match pyIndexZero (jGetD dkvs "tags" (Json.arr [Json.str "Untagged"])) with
      | .error e => .error e
      | .ok tagJ =>
        match pyDictKey tagJ with
        | .error e => .error e
        | .ok tag =>
          let summary := jGetD dkvs "summary" (Json.str (pyUpper method ++ " " ++ endpoint))
          let name := pyUpper method ++ " " ++ endpoint ++ " — " ++ pyStr summary
          let vs := extract_variables endpoint
          let finish := fun (bodyData : Option Json) =>
            let api : ApiInfo := ⟨Json.str name, Json.str endpoint, vs, bodyData⟩
            Except.ok (⟨dmapAppend st.fam tag api, setUnion vs st.all_variables,
              st.total + 1⟩ : PState)
          match pyGetD (jGetD dkvs "requestBody" (Json.obj [])) "content" (Json.obj []) with
          | .error e => .error e
          | .ok content =>
            match pyContains "application/json" content with
            | .error e => .error e
            | .ok hasJson =>
              if hasJson then
                match pySubscript content "application/json" with
                | .error e => .error e
                | .ok media =>
                  match pyGetD media "example" Json.null with
                  | .error e => .error e
                  | .ok exmpl =>
                    if pyTruthy exmpl then finish (some (Json.str (jdumps exmpl)))
                    else finish none
              else finish none
  | _ => .error "AttributeError: get"

/-- The body of the outer loop of parse_openapi: one (path, methods)
pair; .items() on a non-dict methods value raises AttributeError. -/
def processPath (pk : String × Json) (st : PState) : Except String PState :=
  match pk.2 with
  | .obj mkvs => mkvs.foldlM (fun st mk => processOperation pk.1 mk.1 mk.2 st) st
  | _ => .error "AttributeError: items"

/-- parse_openapi (lines 57-82): iterate data.get("paths", {}).items()
and, per path, methods.items(), from an empty state. -/
def parse_openapi (data : Json) : Except String (Fam × Nat × List String) :=
  match pyGetD data "paths" (Json.obj []) with
  | .error e => .error e
  | .ok (.obj pkvs) =>
      match pkvs.foldlM (fun st pk => processPath pk st) initPState with
      | .error e => .error e
      | .ok st => .ok (st.fam, st.total, st.all_variables)
  | .ok _ => .error "AttributeError: items"

/-! ### Shape dispatch (src/app.py lines 151-158) -/

/-- What the module-level dispatch does with a decoded document: a
catalog from one of the two parsers, the classified unsupported-format
message of line 158, or a raised Python exception (caught by the
surrounding handler on line 247 and shown as a generic parse error). -/
inductive ShapeOutcome where
  | catalog : Fam → Nat → List String → ShapeOutcome
  | unsupported : ShapeOutcome
  | pyerror : String → ShapeOutcome

/-- Lift a parser result into the dispatch outcome. -/
def parserOutcome (r : Except String (Fam × Nat × List String)) : ShapeOutcome :=
  match r with
  | .ok (f, t, v) => .catalog f t v
  | .error m => .pyerror m

/-- The three-way dispatch: if "item" in data use parse_postman, elif
"paths" in data use parse_openapi, else report the unsupported format. -/
def shape_dispatch (data : Json) : ShapeOutcome :=
  match pyContains "item" data with
  | .error m => .pyerror m
  | .ok true => parserOutcome (parse_postman data)
  | .ok false =>
      match pyContains "paths" data with
      | .error m => .pyerror m
      | .ok true => parserOutcome (parse_openapi data)
      | .ok false => .unsupported

/-! ### load_test (src/app.py lines 84-112) -/

/-- One recorded outcome: an HTTP status code, or the "ERROR" tag
recorded when requests.get raised. -/
inductive StatusVal where
  | code : Nat → StatusVal
  | err : StatusVal
deriving DecidableEq

/-- The behavior of the network for the i-th dispatched request: either
requests.get returns (status code, measured latency in ms, already
rounded to two decimals), or it raises with a message. -/
abbrev NetOracle := Nat → Sum (Nat × ℚ) String

/-- The triple make_request returns for one unit of work, together with
the latency and status entries it appends (lines 90-101): on success
(url, statusCode, latencyMs) with latency and status recorded, on any
exception (url, ERROR, description) with a None latency and an ERROR
status recorded. -/
def make_request (net : NetOracle) (queue : List String) (i : Nat) :
    (String × StatusVal × Sum ℚ String) × Option ℚ × StatusVal :=
  let url := queue.getD i ""
  match net i with
  | .inl (c, lat) => ((url, .code c, .inl lat), some lat, .code c)
  | .inr e => ((url, .err, .inr e), none, .err)

/-- Python list multiplication l * k: l concatenated k times. -/
def listRepeat (l : List String) : Nat → List String
  | 0 => []
  | k + 1 => l ++ listRepeat l k

/-- The submitted work queue (line 104): the target list repeated
num_requests // len(api_urls) times. -/
def workQueue (api_urls : List String) (num_requests : Nat) : List String :=
  listRepeat api_urls (num_requests / api_urls.length)

/-- load_test (lines 84-112).  Workers run concurrently, and the two
appends a worker performs (latencies.append on line 95 or 99,
statuses.append on line 96 or 100) are separate unsynchronized
mutations of two shared lists: a thread switch between them lets other
workers' appends interleave, so the order in which the latencies list
receives its per-request entries (latOrder) and the order in which the
statuses list receives its entries (statOrder) are independent
nondeterministic permutations of the queue positions, as is the order
completed futures are drained by as_completed (complOrder).  All three
are taken as parameters; theorems assume each is a permutation of
range(len(queue)).  An empty target list raises ZeroDivisionError at
the queue construction before any dispatch.  Returns
(results, latencies, statuses). -/
def load_test (net : NetOracle) (api_urls : List String) (num_requests : Nat)
    (latOrder statOrder complOrder : List Nat) :
    Except String (List (String × StatusVal × Sum ℚ String) × List (Option ℚ) × List StatusVal) :=
  if api_urls.length = 0 then .error "ZeroDivisionError"
  else
    let queue := workQueue api_urls num_requests
    .ok ( complOrder.map (fun i => (make_request net queue i).1)
        , latOrder.map (fun i => (make_request net queue i).2.1)
        , statOrder.map (fun i => (make_request net queue i).2.2) )

/-! ### plot_results (src/app.py lines 114-140) -/

/-- What plot_results computes and hands to the rendering calls: the
list given to plt.hist as the latency distribution (line 119), the
success count and rates (lines 126-129), and the latency/status pairs
the per-status box plot DataFrame is built from (line 138).  The
rendering calls themselves are external collaborators. -/
structure Summary where
  histogram_input : List (Option ℚ)
  success_count : Nat
  error_count : Nat
  success_rate : ℚ
  error_rate : ℚ
  box_pairs : List (Option ℚ × StatusVal)

/-- plot_results: none exactly when the success-rate division (line 128)
divides by len(statuses) = 0 and raises ZeroDivisionError. -/
def plot_results (latencies : List (Option ℚ)) (statuses : List StatusVal) :
    Option Summary :=
  if statuses.length = 0 then none
  else
    let sc := statuses.count (StatusVal.code 200)
    some { histogram_input := latencies
         , success_count := sc
         , error_count := statuses.length - sc
         , success_rate := (sc : ℚ) / (statuses.length : ℚ) * 100
         , error_rate := 100 - (sc : ℚ) / (statuses.length : ℚ) * 100
         , box_pairs := latencies.zip statuses }

/-! ### Spec-side predicates

These state, per endpoint, the variables-field shapes the two parsers
are claimed to produce, and the step relation the catalog-building
loops preserve. -/

/-- The variables field of a hierarchical-parse endpoint: the sorted
set of the placeholders of its own raw url, of its header values (the
header values themselves are not retained in api_info, hence the
existential), and of its captured raw body. -/
def PostmanVarsShape (api : ApiInfo) : Prop :=
  ∃ headerVars, api.vars = sortedSetOf (extract_variables_json api.path ++ headerVars ++
    (api.body.map extract_variables_json).getD [])

/-- The variables field of a flat-parse endpoint: the raw occurrence
list of the placeholders of its path string, exactly as re.findall
returns it. -/
def OpenapiVarsShape (api : ApiInfo) : Prop :=
  ∃ p, api.path = Json.str p ∧ api.vars = extract_variables p

/-- One catalog-building step from st to st': the total grows exactly
as fast as the summed group lengths, and every endpoint present
afterwards was either present before or satisfies Q. -/
def CatStep (Q : ApiInfo → Prop) (st st' : PState) : Prop :=
  st'.total + sumLens st.fam = st.total + sumLens st'.fam ∧
  ∀ api, api ∈ apisOf st'.fam → api ∈ apisOf st.fam ∨ Q api

/-! ### Helper lemmas -/

theorem except_bind_ok {α β : Type} {x : Except String α} {f : α → Except String β} {b : β}
    (h : x >>= f = .ok b) : ∃ a, x = .ok a ∧ f a = .ok b := by
  cases x with
  | ok a => exact ⟨a, rfl, h⟩
  | error e => simp [Bind.bind, Except.bind] at h

theorem strLeb_refl (l : List Char) : strLeb l l = true := by
  induction l with
  | nil => rfl
  | cons a as ih => simp [strLeb, ih]

theorem strLeb_total (a b : List Char) : strLeb a b = true ∨ strLeb b a = true := by
  induction a generalizing b with
  | nil => exact .inl rfl
  | cons x xs ih =>
    cases b with
    | nil => exact .inr rfl
    | cons y ys =>
      rcases lt_trichotomy x y with hxy | hxy | hxy
      · exact .inl (by simp [strLeb, ne_of_lt hxy, hxy])
      · subst hxy
        rcases ih ys with h | h
        · exact .inl (by simp [strLeb, h])
        · exact .inr (by simp [strLeb, h])
      · exact .inr (by simp [strLeb, ne_of_lt hxy, hxy])

theorem strLeb_trans {a b c : List Char} (h1 : strLeb a b = true)
    (h2 : strLeb b c = true) : strLeb a c = true := by
  induction a generalizing b c with
  | nil => rfl
  | cons x xs ih =>
    cases b with
    | nil => simp [strLeb] at h1
    | cons y ys =>
      cases c with
      | nil => simp [strLeb] at h2
      | cons z zs =>
        by_cases hxy : x = y
        · subst hxy
          by_cases hxz : x = z
          · subst hxz
            simp only [strLeb, if_pos rfl] at h1 h2 ⊢
            exact ih h1 h2
          · simp only [strLeb, if_pos rfl] at h1
            simp only [strLeb, if_neg hxz] at h2 ⊢
            exact h2
        · simp only [strLeb, if_neg hxy, decide_eq_true_eq] at h1
          by_cases hyz : y = z
          · have hxz : x < z := hyz ▸ h1
            simp [strLeb, ne_of_lt hxz, hxz]
          · simp only [strLeb, if_neg hyz, decide_eq_true_eq] at h2
            have hxz : x < z := lt_trans h1 h2
            simp [strLeb, ne_of_lt hxz, hxz]

theorem strLeb_antisymm {a b : List Char} (h1 : strLeb a b = true)
    (h2 : strLeb b a = true) : a = b := by
  induction a generalizing b with
  | nil =>
    cases b with
    | nil => rfl
    | cons y ys => simp [strLeb] at h2
  | cons x xs ih =>
    cases b with
    | nil => simp [strLeb] at h1
    | cons y ys =>
      by_cases hxy : x = y
      · subst hxy
        simp only [strLeb, if_pos rfl] at h1 h2
        rw [ih h1 h2]
      · simp only [strLeb, if_neg hxy, decide_eq_true_eq] at h1
        simp only [strLeb, if_neg (Ne.symm hxy), decide_eq_true_eq] at h2
        exact absurd h1 (lt_asymm h2)

theorem string_data_inj {a b : String} (h : a.data = b.data) : a = b := by
  cases a; cases b; exact congrArg String.mk h

theorem strLe_of_string_eq {a b : String} (h : a = b) : StrLe a b := by
  subst h; exact strLeb_refl _

theorem mem_setInsert (a x : String) (l : List String) :
    a ∈ setInsert x l ↔ a = x ∨ a ∈ l := by
  induction l with
  | nil => simp [setInsert]
  | cons y ys ih =>
    simp only [setInsert]
    split
    · rename_i hxy
      subst hxy
      simp only [List.mem_cons]
      tauto
    · split
      · simp
      · simp only [List.mem_cons, ih]
        tauto

theorem setInsert_sorted_nodup (x : String) (l : List String)
    (hs : List.Sorted StrLe l) (hn : l.Nodup) :
    List.Sorted StrLe (setInsert x l) ∧ (setInsert x l).Nodup := by
  induction l with
  | nil => simp [setInsert, StrLe, strLeb_refl]
  | cons y ys ih =>
    rw [List.sorted_cons] at hs
    obtain ⟨hyall, hys⟩ := hs
    rw [List.nodup_cons] at hn
    obtain ⟨hyni, hyn⟩ := hn
    obtain ⟨ihs, ihn⟩ := ih hys hyn
    simp only [setInsert]
    split
    · rename_i hxy
      subst hxy
      constructor
      · rw [List.sorted_cons]; exact ⟨hyall, hys⟩
      · rw [List.nodup_cons]; exact ⟨hyni, hyn⟩
    · rename_i hxy
      split
      · rename_i hxley
        constructor
        · rw [List.sorted_cons]
          refine ⟨?_, ?_⟩
          · intro b hb
            rcases List.mem_cons.mp hb with hb | hb
            · subst hb; exact hxley
            · exact strLeb_trans hxley (hyall b hb)
          · rw [List.sorted_cons]; exact ⟨hyall, hys⟩
        · rw [List.nodup_cons]
          refine ⟨?_, ?_⟩
          · intro hmem
            rcases List.mem_cons.mp hmem with hb | hb
            · exact hxy hb
            · exact hxy (string_data_inj (strLeb_antisymm hxley (hyall x hb)))
          · rw [List.nodup_cons]; exact ⟨hyni, hyn⟩
      · rename_i hxgty
        have hylex : StrLe y x := by
          rcases strLeb_total x.data y.data with h | h
          · exact absurd h hxgty
          · exact h
        constructor
        · rw [List.sorted_cons]
          refine ⟨?_, ihs⟩
          intro b hb
          rcases (mem_setInsert b x ys).mp hb with hb | hb
          · subst hb; exact hylex
          · exact hyall b hb
        · rw [List.nodup_cons]
          refine ⟨?_, ihn⟩
          intro hmem
          rcases (mem_setInsert y x ys).mp hmem with hb | hb
          · exact hxgty (hb ▸ strLeb_refl _)
          · exact hyni hb

theorem sortedSetOf_sorted_nodup (l : List String) :
    List.Sorted StrLe (sortedSetOf l) ∧ (sortedSetOf l).Nodup := by
  induction l with
  | nil => simp [sortedSetOf]
  | cons a as ih =>
    exact setInsert_sorted_nodup a (sortedSetOf as) ih.1 ih.2

theorem sortedSetOf_sorted (l : List String) : List.Sorted StrLe (sortedSetOf l) :=
  (sortedSetOf_sorted_nodup l).1

theorem sortedSetOf_nodup (l : List String) : (sortedSetOf l).Nodup :=
  (sortedSetOf_sorted_nodup l).2

theorem mem_sortedSetOf (a : String) (l : List String) :
    a ∈ sortedSetOf l ↔ a ∈ l := by
  induction l with
  | nil => simp [sortedSetOf]
  | cons b bs ih =>
    show a ∈ setInsert b (sortedSetOf bs) ↔ _
    rw [mem_setInsert]
    simp [ih]

theorem apisOf_cons (k : String) (vs : List ApiInfo) (rest : Fam) :
    apisOf ((k, vs) :: rest) = vs ++ apisOf rest := rfl

theorem sumLens_cons (k : String) (vs : List ApiInfo) (rest : Fam) :
    sumLens ((k, vs) :: rest) = vs.length + sumLens rest := rfl

theorem mem_apisOf_dmapAppend {a : ApiInfo} (fam : Fam) (k : String) (v : ApiInfo) :
    a ∈ apisOf (dmapAppend fam k v) ↔ a ∈ apisOf fam ∨ a = v := by
  induction fam with
  | nil => simp [dmapAppend, apisOf]
  | cons g rest ih =>
    obtain ⟨k', vs⟩ := g
    simp only [dmapAppend]
    split
    · simp only [apisOf_cons, List.mem_append, List.mem_cons, List.mem_singleton]
      tauto
    · simp only [apisOf_cons, List.mem_append, ih]
      tauto

theorem sumLens_dmapAppend (fam : Fam) (k : String) (v : ApiInfo) :
    sumLens (dmapAppend fam k v) = sumLens fam + 1 := by
  induction fam with
  | nil => simp [dmapAppend, sumLens]
  | cons g rest ih =>
    obtain ⟨k', vs⟩ := g
    simp only [dmapAppend]
    split
    · simp only [sumLens_cons, List.length_append, List.length_singleton]
      omega
    · simp only [sumLens_cons, ih]
      omega

theorem catStep_refl (Q : ApiInfo → Prop) (st : PState) : CatStep Q st st :=
  ⟨rfl, fun _ h => .inl h⟩

theorem catStep_trans {Q : ApiInfo → Prop} {st1 st2 st3 : PState}
    (h12 : CatStep Q st1 st2) (h23 : CatStep Q st2 st3) : CatStep Q st1 st3 := by
  obtain ⟨c12, m12⟩ := h12
  obtain ⟨c23, m23⟩ := h23
  refine ⟨by omega, fun api h => ?_⟩
  rcases m23 api h with h2 | hq
  · exact m12 api h2
  · exact .inr hq

theorem catStep_push {Q : ApiInfo → Prop} {st st' : PState} {k : String} {api : ApiInfo}
    (hfam : st'.fam = dmapAppend st.fam k api) (htot : st'.total = st.total + 1)
    (hq : Q api) : CatStep Q st st' := by
  constructor
  · rw [hfam, htot, sumLens_dmapAppend]
    omega
  · intro a ha
    rw [hfam] at ha
    rcases (mem_apisOf_dmapAppend _ _ _).mp ha with h | h
    · exact .inl h
    · exact .inr (h ▸ hq)

theorem processLeaf_spec {kvs : List (String × Json)} {path : String} {st st' : PState}
    (h : processLeaf kvs path st = .ok st') :
    ∃ api, st'.fam = dmapAppend st.fam path api ∧ st'.total = st.total + 1 ∧
      PostmanVarsShape api := by
  unfold processLeaf at h
  cases hreq : jLookup "request" kvs with
  | none => simp [hreq] at h
  | some r =>
    simp only [hreq] at h
    cases r with
    | obj rkvs =>
      cases hld : leafData rkvs with
      | error e => simp [hld] at h
      | ok x =>
        simp only [hld] at h
        obtain ⟨url, hv, bd⟩ := x
        have h' := Except.ok.inj h
        exact ⟨_, congrArg PState.fam h'.symm, congrArg PState.total h'.symm, ⟨hv, rfl⟩⟩
    | null => simp at h
    | bool b => simp at h
    | num n => simp at h
    | str s => simp at h
    | arr xs => simp at h

theorem traverseAux_catStep :
    ∀ (fuel : Nat) (items : List Json) (path : String) (st st' : PState),
      traverseAux fuel items path st = .ok st' → CatStep PostmanVarsShape st st' := by
  intro fuel
  induction fuel with
  | zero =>
    intro items path st st' h
    exact absurd h (by simp [traverseAux])
  | succ fuel ih =>
    intro items path st st' h
    cases items with
    | nil =>
      simp only [traverseAux] at h
      cases h
      exact catStep_refl _ _
    | cons item rest =>
      cases item with
      | obj kvs =>
        simp only [traverseAux] at h
        by_cases hreq : containsKey "request" kvs = true
        · rw [if_pos hreq] at h
          cases hpl : processLeaf kvs path st with
          | error e => rw [hpl] at h; exact Except.noConfusion h
          | ok st1 =>
            rw [hpl] at h
            rcases processLeaf_spec hpl with ⟨api, hfam, htot, hq⟩
            exact catStep_trans (catStep_push hfam htot hq) (ih rest path st1 st' h)
        · rw [if_neg hreq] at h
          by_cases hitem : containsKey "item" kvs = true
          · rw [if_pos hitem] at h
            cases hname : jLookup "name" kvs with
            | none => simp [hname] at h
            | some nm =>
              simp only [hname] at h
              cases hch : jLookup "item" kvs with
              | none => simp [hch] at h
              | some cj =>
                cases cj with
                | arr children =>
                  simp only [hch] at h
                  cases htr : traverseAux fuel children
                      (if path = "" then pyStr nm else path ++ "/" ++ pyStr nm) st with
                  | error e => simp [htr] at h
                  | ok st1 =>
                    simp only [htr] at h
                    exact catStep_trans (ih children _ st st1 htr) (ih rest path st1 st' h)
                | str s =>
                  simp only [hch] at h
                  by_cases hse : s.data.isEmpty = true
                  · rw [if_pos hse] at h
                    exact ih rest path st st' h
                  · rw [if_neg hse] at h
                    exact Except.noConfusion h
                | obj okvs =>
                  cases okvs with
                  | nil =>
                    simp only [hch] at h
                    exact ih rest path st st' h
                  | cons o os => simp [hch] at h
                | null => simp [hch] at h
                | bool b => simp [hch] at h
                | num n => simp [hch] at h
          · rw [if_neg hitem] at h
            exact ih rest path st st' h
      | null => simp [traverseAux] at h
      | bool b => simp [traverseAux] at h
      | num n => simp [traverseAux] at h
      | str s => simp [traverseAux] at h
      | arr xs => simp [traverseAux] at h

theorem catStep_from_init {Q : ApiInfo → Prop} {st : PState}
    (h : CatStep Q initPState st) :
    st.total = sumLens st.fam ∧ ∀ api ∈ apisOf st.fam, Q api := by
  obtain ⟨hc, hm⟩ := h
  constructor
  · simpa [initPState, sumLens] using hc
  · intro api hapi
    rcases hm api hapi with habs | hq
    · exact absurd habs (by simp [initPState, apisOf])
    · exact hq

theorem parse_postman_spec {data : Json} {fam : Fam} {t : Nat} {v : List String}
    (h : parse_postman data = .ok (fam, t, v)) :
    t = sumLens fam ∧ ∀ api ∈ apisOf fam, PostmanVarsShape api := by
  unfold parse_postman at h
  cases hget : pyGetD data "item" (Json.arr []) with
  | error e => simp [hget] at h
  | ok itemsJ =>
    cases itemsJ with
    | arr xs =>
      simp only [hget] at h
      cases htr : traverseAux (jSizeList xs + 1) xs "" initPState with
      | error e => simp [htr] at h
      | ok st =>
        simp only [htr, Except.ok.injEq, Prod.mk.injEq] at h
        obtain ⟨h1, h2, h3⟩ := h
        subst h1
        subst h2
        exact catStep_from_init (traverseAux_catStep _ xs "" initPState st htr)
    | str s =>
      simp only [hget] at h
      by_cases hse : s.data.isEmpty = true
      · rw [if_pos hse] at h
        simp only [Except.ok.injEq, Prod.mk.injEq] at h
        obtain ⟨h1, h2, h3⟩ := h
        subst h1
        subst h2
        exact catStep_from_init (catStep_refl _ _)
      · rw [if_neg hse] at h
        exact Except.noConfusion h
    | obj okvs =>
      cases okvs with
      | nil =>
        simp only [hget, Except.ok.injEq, Prod.mk.injEq] at h
        obtain ⟨h1, h2, h3⟩ := h
        subst h1
        subst h2
        exact catStep_from_init (catStep_refl _ _)
      | cons o os => simp [hget] at h
    | null => simp [hget] at h
    | bool b => simp [hget] at h
    | num n => simp [hget] at h

theorem processOperation_spec {ep m : String} {details : Json} {st st' : PState}
    (h : processOperation ep m details st = .ok st') :
    ∃ api tag, st'.fam = dmapAppend st.fam tag api ∧ st'.total = st.total + 1 ∧
      OpenapiVarsShape api := by
  unfold processOperation at h
  cases details with
  | obj dkvs =>
    cases h1 : pyIndexZero (jGetD dkvs "tags" (Json.arr [Json.str "Untagged"])) with
    | error e => simp [h1] at h
    | ok tagJ =>
      simp only [h1] at h
      cases h2 : pyDictKey tagJ with
      | error e => simp [h2] at h
      | ok tag =>
        simp only [h2] at h
        cases h3 : pyGetD (jGetD dkvs "requestBody" (Json.obj [])) "content" (Json.obj []) with
        | error e => simp [h3] at h
        | ok content =>
          simp only [h3] at h
          cases h4 : pyContains "application/json" content with
          | error e => simp [h4] at h
          | ok hasJson =>
            simp only [h4] at h
            cases hasJson with
            | false =>
              rw [if_neg Bool.false_ne_true] at h
              have h' := Except.ok.inj h
              exact ⟨_, tag, congrArg PState.fam h'.symm, congrArg PState.total h'.symm,
                ⟨ep, rfl, rfl⟩⟩
            | true =>
              rw [if_pos rfl] at h
              cases h5 : pySubscript content "application/json" with
              | error e => simp [h5] at h
              | ok media =>
                simp only [h5] at h
                cases h6 : pyGetD media "example" Json.null with
                | error e => simp [h6] at h
                | ok exmpl =>
                  simp only [h6] at h
                  cases htr : pyTruthy exmpl with
                  | true =>
                    rw [htr, if_pos rfl] at h
                    have h' := Except.ok.inj h
                    exact ⟨_, tag, congrArg PState.fam h'.symm, congrArg PState.total h'.symm,
                      ⟨ep, rfl, rfl⟩⟩
                  | false =>
                    rw [htr, if_neg Bool.false_ne_true] at h
                    have h' := Except.ok.inj h
                    exact ⟨_, tag, congrArg PState.fam h'.symm, congrArg PState.total h'.symm,
                      ⟨ep, rfl, rfl⟩⟩
  | null => simp at h
  | bool b => simp at h
  | num n => simp at h
  | str s => simp at h
  | arr xs => simp at h

theorem foldlM_catStep {α : Type} {Q : ApiInfo → Prop} {f : PState → α → Except String PState}
    (hf : ∀ st x st', f st x = .ok st' → CatStep Q st st') :
    ∀ (l : List α) (st st' : PState), List.foldlM f st l = .ok st' → CatStep Q st st' := by
  intro l
  induction l with
  | nil =>
    intro st st' h
    have h' : st = st' := Except.ok.inj h
    exact h' ▸ catStep_refl _ _
  | cons x xs ih =>
    intro st st' h
    rw [List.foldlM_cons] at h
    rcases except_bind_ok h with ⟨st1, hx, h⟩
    exact catStep_trans (hf st x st1 hx) (ih st1 st' h)

theorem processPath_spec {pk : String × Json} {st st' : PState}
    (h : processPath pk st = .ok st') : CatStep OpenapiVarsShape st st' := by
  unfold processPath at h
  cases hpk : pk.2 with
  | obj mkvs =>
    simp only [hpk] at h
    refine foldlM_catStep (fun st x st' hh => ?_) mkvs st st' h
    rcases processOperation_spec hh with ⟨api, tag, hfam, htot, hq⟩
    exact catStep_push hfam htot hq
  | null => simp [hpk] at h
  | bool b => simp [hpk] at h
  | num n => simp [hpk] at h
  | str s => simp [hpk] at h
  | arr xs => simp [hpk] at h

theorem parse_openapi_spec {data : Json} {fam : Fam} {t : Nat} {v : List String}
    (h : parse_openapi data = .ok (fam, t, v)) :
    t = sumLens fam ∧ ∀ api ∈ apisOf fam, OpenapiVarsShape api := by
  unfold parse_openapi at h
  cases hget : pyGetD data "paths" (Json.obj []) with
  | error e => simp [hget] at h
  | ok pathsJ =>
    cases pathsJ with
    | obj pkvs =>
      simp only [hget] at h
      cases hfold : pkvs.foldlM (fun st pk => processPath pk st) initPState with
      | error e => simp [hfold] at h
      | ok st =>
        simp only [hfold, Except.ok.injEq, Prod.mk.injEq] at h
        obtain ⟨h1, h2, h3⟩ := h
        subst h1
        subst h2
        exact catStep_from_init
          (foldlM_catStep (fun st pk st' hh => processPath_spec hh) pkvs initPState st hfold)
    | null => simp [hget] at h
    | bool b => simp [hget] at h
    | num n => simp [hget] at h
    | str s => simp [hget] at h
    | arr xs => simp [hget] at h

theorem listRepeat_length (l : List String) (k : Nat) :
    (listRepeat l k).length = k * l.length := by
  induction k with
  | zero => simp [listRepeat]
  | succ k ih => simp [listRepeat, ih, Nat.succ_mul]; omega

theorem plot_results_histogram_input (lats : List (Option ℚ)) (stats : List StatusVal)
    (s : Summary) (h : plot_results lats stats = some s) : s.histogram_input = lats := by
  unfold plot_results at h
  by_cases h0 : stats.length = 0
  · rw [if_pos h0] at h
    exact Option.noConfusion h
  · rw [if_neg h0] at h
    have h' := Option.some.inj h
    rw [← h']

/-! ### Claim theorems -/

/-- C1: for every non-empty list of targets and every requested volume,
load_test builds a work queue of exactly len(targets) * (requestedVolume
// len(targets)) units (the effective count, computed once at line 104)
and, once every future has completed, returns exactly that many results,
whatever order the futures complete in. -/
theorem load_test_dispatch_count (net : NetOracle) (api_urls : List String)
    (num_requests : Nat) (latOrder statOrder complOrder : List Nat)
    (hne : api_urls ≠ [])
    (hco : complOrder.Perm (List.range (workQueue api_urls num_requests).length)) :
    (workQueue api_urls num_requests).length
        = api_urls.length * (num_requests / api_urls.length) ∧
    ∃ res lats stats, load_test net api_urls num_requests latOrder statOrder complOrder
        = .ok (res, lats, stats) ∧
      res.length = api_urls.length * (num_requests / api_urls.length) := by
  have hne0 : ¬ api_urls.length = 0 := fun h0 => hne (List.length_eq_zero.mp h0)
  have hq : (workQueue api_urls num_requests).length
      = api_urls.length * (num_requests / api_urls.length) := by
    simp [workQueue, listRepeat_length, Nat.mul_comm]
  have heq : load_test net api_urls num_requests latOrder statOrder complOrder
      = .ok ( complOrder.map (fun i => (make_request net (workQueue api_urls num_requests) i).1)
            , latOrder.map (fun i => (make_request net (workQueue api_urls num_requests) i).2.1)
            , statOrder.map (fun i => (make_request net (workQueue api_urls num_requests) i).2.2) ) := by
    unfold load_test
    rw [if_neg hne0]
  refine ⟨hq, _, _, _, heq, ?_⟩
  simp only [List.length_map]
  rw [hco.length_eq, List.length_range, hq]

/-- Witness for C1 at the two spec examples: two targets with requested
volume 10 give exactly 10 results, and with requested volume 7 exactly
6 = 2 * (7 // 2) results (under-dispatch). -/
theorem load_test_dispatch_count_witness :
    ((["http://a", "http://b"] : List String) ≠ [] ∧
      (List.range 10).Perm (List.range (workQueue ["http://a", "http://b"] 10).length) ∧
      (List.range 6).Perm (List.range (workQueue ["http://a", "http://b"] 7).length)) ∧
    (∃ res lats stats, load_test (fun _ => .inr "down") ["http://a", "http://b"] 10
        (List.range 10) (List.range 10) (List.range 10) = .ok (res, lats, stats) ∧
      res.length = 2 * (10 / 2)) ∧
    (∃ res lats stats, load_test (fun _ => .inr "down") ["http://a", "http://b"] 7
        (List.range 6) (List.range 6) (List.range 6) = .ok (res, lats, stats) ∧
      res.length = 2 * (7 / 2)) := by
  refine ⟨⟨by decide, List.Perm.refl _, List.Perm.refl _⟩, ?_, ?_⟩
  · exact (load_test_dispatch_count (fun _ => .inr "down") ["http://a", "http://b"] 10
      (List.range 10) (List.range 10) (List.range 10) (by decide) (List.Perm.refl _)).2
  · exact (load_test_dispatch_count (fun _ => .inr "down") ["http://a", "http://b"] 7
      (List.range 6) (List.range 6) (List.range 6) (by decide) (List.Perm.refl _)).2

/-- C4 counterexample: summarizing the empty result sequence does not
succeed — the success-rate computation on line 128 divides by
len(statuses) = 0 and raises ZeroDivisionError, modeled as none — so it
does not yield a success_rate of 0. -/
theorem plot_results_empty_divzero_cex : plot_results [] [] = none := rfl

/-- C4 amended: summarize fails with ZeroDivisionError exactly on the
empty result sequence; every non-empty sequence is summarized
successfully (the success-rate formula for that case is settled with
C7). -/
theorem plot_results_none_iff_empty (lats : List (Option ℚ)) (stats : List StatusVal) :
    plot_results lats stats = none ↔ stats = [] := by
  unfold plot_results
  by_cases h0 : stats.length = 0
  · rw [if_pos h0]
    simp [List.length_eq_zero.mp h0]
  · rw [if_neg h0]
    constructor
    · intro hc
      exact absurd hc (by simp)
    · intro hc
      subst hc
      exact absurd rfl h0

/-- C5 counterexample: a load test whose single request raises records
the latency entry None — so the ERROR result does contribute an entry to
the latency list handed to the distribution plot, an absent one. -/
theorem load_test_error_latency_cex :
    load_test (fun _ => .inr "connection error") ["http://a"] 1 [0] [0] [0]
      = .ok ([("http://a", StatusVal.err, Sum.inr "connection error")],
          [none], [StatusVal.err]) ∧
    ∃ s, plot_results [none] [StatusVal.err] = some s ∧
      (none : Option ℚ) ∈ s.histogram_input := by
  refine ⟨rfl, _, rfl, ?_⟩
  simp

/-- C5 amended: each dispatched request that raises records the latency
entry None together with the ERROR status, and each completed request a
numeric latency together with its status code, so an ERROR outcome never
contributes a numeric latency value — but it does contribute an absent
entry, since the distribution is built from the full latencies list.
Because a worker's two appends (lines 95-96 resp. 99-100) are separate
unsynchronized mutations of two shared lists, the interleaving of
threads guarantees only multiset-level correspondence between the two
lists, not index-for-index pairing: in every completed run the number of
None latency entries equals the number of ERROR statuses. -/
theorem load_test_latency_error_multiset (net : NetOracle) (api_urls : List String)
    (num_requests : Nat) (latOrder statOrder complOrder : List Nat)
    (res : List (String × StatusVal × Sum ℚ String)) (lats : List (Option ℚ))
    (stats : List StatusVal)
    (h : load_test net api_urls num_requests latOrder statOrder complOrder
      = .ok (res, lats, stats))
    (hlat : latOrder.Perm (List.range (workQueue api_urls num_requests).length))
    (hstat : statOrder.Perm (List.range (workQueue api_urls num_requests).length)) :
    (∀ (queue : List String) (i : Nat),
        ((make_request net queue i).2.1 = none
          ↔ (make_request net queue i).2.2 = StatusVal.err)) ∧
    lats.count none = stats.count StatusVal.err ∧
    (∀ s, plot_results lats stats = some s → s.histogram_input = lats) := by
  have hper : ∀ (queue : List String) (i : Nat),
      ((make_request net queue i).2.1 = none
        ↔ (make_request net queue i).2.2 = StatusVal.err) := by
    intro queue i
    cases hnet : net i with
    | inl pr =>
      obtain ⟨c, lat⟩ := pr
      simp [make_request, hnet]
    | inr e =>
      simp [make_request, hnet]
  unfold load_test at h
  by_cases h0 : api_urls.length = 0
  · rw [if_pos h0] at h
    exact Except.noConfusion h
  · rw [if_neg h0] at h
    simp only [Except.ok.injEq, Prod.mk.injEq] at h
    obtain ⟨hres, hl, hs⟩ := h
    subst hl
    subst hs
    refine ⟨hper, ?_, fun s hs => plot_results_histogram_input _ _ _ hs⟩
    have hpb : ∀ i : Nat,
        ((make_request net (workQueue api_urls num_requests) i).2.1 == none)
          = ((make_request net (workQueue api_urls num_requests) i).2.2 == StatusVal.err) := by
      intro i
      cases hnet : net i with
      | inl pr =>
        obtain ⟨c, lat⟩ := pr
        simp [make_request, hnet]
      | inr e =>
        simp [make_request, hnet]
    show List.countP _ _ = List.countP _ _
    rw [List.countP_map, List.countP_map, hlat.countP_eq, hstat.countP_eq]
    rw [show ((fun x => x == (none : Option ℚ))
          ∘ fun i => (make_request net (workQueue api_urls num_requests) i).2.1)
        = ((fun x => x == StatusVal.err)
          ∘ fun i => (make_request net (workQueue api_urls num_requests) i).2.2)
      from funext hpb]

/-- Witness for C5 amended, at a two-request run in which every request
raises and the two lists receive their entries in opposite orders. -/
theorem load_test_latency_error_multiset_witness :
    (load_test (fun _ => .inr "refused") ["http://a"] 2 [0, 1] [1, 0] [0, 1]
      = .ok ([("http://a", StatusVal.err, Sum.inr "refused"),
              ("http://a", StatusVal.err, Sum.inr "refused")],
          [none, none], [StatusVal.err, StatusVal.err]) ∧
     ([0, 1] : List Nat).Perm (List.range (workQueue ["http://a"] 2).length) ∧
     ([1, 0] : List Nat).Perm (List.range (workQueue ["http://a"] 2).length)) ∧
    ((∀ (queue : List String) (i : Nat),
        ((make_request (fun _ => .inr "refused") queue i).2.1 = none
          ↔ (make_request (fun _ => .inr "refused") queue i).2.2 = StatusVal.err)) ∧
     ([none, none] : List (Option ℚ)).count none
        = ([StatusVal.err, StatusVal.err] : List StatusVal).count StatusVal.err ∧
     (∀ s, plot_results [none, none] [StatusVal.err, StatusVal.err] = some s →
        s.histogram_input = [none, none])) :=
  ⟨⟨rfl, by decide, by decide⟩,
    load_test_latency_error_multiset (fun _ => .inr "refused") ["http://a"] 2
      [0, 1] [1, 0] [0, 1] _ _ _ rfl (by decide) (by decide)⟩

/-- C7: a result counts as a success exactly when its outcome is the
numeric code 200 (404 and the ERROR tag both count as failures), the
success rate is successes / totalResults * 100, and summarizing the
outcomes [200, 200, 404, ERROR] yields a success rate of exactly 50. -/
theorem plot_results_success_criterion :
    (∀ (lats : List (Option ℚ)) (stats : List StatusVal), stats ≠ [] →
      ∃ s, plot_results lats stats = some s ∧
        s.success_count = (stats.filter (fun x => decide (x = StatusVal.code 200))).length ∧
        s.error_count = stats.length - s.success_count ∧
        s.success_rate = (s.success_count : ℚ) / (stats.length : ℚ) * 100) ∧
    (∃ s, plot_results [some 1, some 2, some 3]
        [StatusVal.code 200, StatusVal.code 200, StatusVal.code 404, StatusVal.err]
          = some s ∧ s.success_rate = 50) := by
  constructor
  · intro lats stats hne
    have h0 : ¬ stats.length = 0 := fun hh => hne (List.length_eq_zero.mp hh)
    have heq : plot_results lats stats
        = some { histogram_input := lats
               , success_count := stats.count (StatusVal.code 200)
               , error_count := stats.length - stats.count (StatusVal.code 200)
               , success_rate := (stats.count (StatusVal.code 200) : ℚ) / (stats.length : ℚ) * 100
               , error_rate := 100 - (stats.count (StatusVal.code 200) : ℚ) / (stats.length : ℚ) * 100
               , box_pairs := lats.zip stats } := by
      unfold plot_results
      rw [if_neg h0]
    refine ⟨_, heq, ?_, rfl, rfl⟩
    exact List.countP_eq_length_filter _ _
  · refine ⟨_, rfl, ?_⟩
    show ((2 : ℚ)) / ((4 : ℚ)) * 100 = 50
    norm_num

/-- Witness for C7 at the spec example [200, 200, 404, ERROR]. -/
theorem plot_results_success_criterion_witness :
    ([StatusVal.code 200, StatusVal.code 200, StatusVal.code 404, StatusVal.err]
        ≠ ([] : List StatusVal)) ∧
    (∃ s, plot_results [some 1, some 2, some 3, none]
        [StatusVal.code 200, StatusVal.code 200, StatusVal.code 404, StatusVal.err]
          = some s ∧
        s.success_count = (([StatusVal.code 200, StatusVal.code 200, StatusVal.code 404,
            StatusVal.err].filter (fun x => decide (x = StatusVal.code 200)))).length ∧
        s.error_count = ([StatusVal.code 200, StatusVal.code 200, StatusVal.code 404,
            StatusVal.err] : List StatusVal).length - s.success_count ∧
        s.success_rate = (s.success_count : ℚ)
          / (([StatusVal.code 200, StatusVal.code 200, StatusVal.code 404,
              StatusVal.err] : List StatusVal).length : ℚ) * 100) :=
  ⟨by decide, plot_results_success_criterion.1 [some 1, some 2, some 3, none]
    [StatusVal.code 200, StatusVal.code 200, StatusVal.code 404, StatusVal.err] (by decide)⟩

/-- C3 counterexample: the extractor does not deduplicate — on the spec
example with a repeated placeholder it returns the name "id" twice, so
its output is not a set of distinct names. -/
theorem extract_variables_duplicates_cex :
    ¬ (extract_variables
        "https://api.x.com/\x7b\x7bhost\x7d\x7d/v1/\x7b\x7bid\x7d\x7d/\x7b\x7bid\x7d\x7d").Nodup ∧
    (extract_variables
        "https://api.x.com/\x7b\x7bhost\x7d\x7d/v1/\x7b\x7bid\x7d\x7d/\x7b\x7bid\x7d\x7d").count "id"
      = 2 := by
  exact ⟨by decide, by decide⟩

/-- C3 amended: the extractor returns the list of all non-overlapping
placeholder matches in order of occurrence with duplicates preserved (a
caller that needs a set deduplicates it); on the spec example it returns
["host", "id", "id"], whose set of distinct names is exactly
the two names host and id. -/
theorem extract_variables_occurrence_list :
    extract_variables
        "https://api.x.com/\x7b\x7bhost\x7d\x7d/v1/\x7b\x7bid\x7d\x7d/\x7b\x7bid\x7d\x7d"
      = ["host", "id", "id"] ∧
    sortedSetOf (extract_variables
        "https://api.x.com/\x7b\x7bhost\x7d\x7d/v1/\x7b\x7bid\x7d\x7d/\x7b\x7bid\x7d\x7d")
      = ["host", "id"] := ⟨rfl, rfl⟩

/-- C2 counterexample: the flat parser stores the raw occurrence list of
path placeholders — parsing a specification whose single path repeats
the placeholder id yields an endpoint whose variables field is
["id", "id"], which is not deduplicated. -/
theorem parse_openapi_duplicate_vars_cex :
    (parse_openapi (Json.obj [("paths", Json.obj [("/x/\x7b\x7bid\x7d\x7d/\x7b\x7bid\x7d\x7d",
        Json.obj [("get", Json.obj [])])])])).toOption.map
          (fun r => (apisOf r.1).map (fun api => api.vars)) = some [["id", "id"]] ∧
    ¬ (["id", "id"] : List String).Nodup := ⟨rfl, by decide⟩

/-- C2 amended: every endpoint of a hierarchical parse carries a
deduplicated variables list in sorted order whose members are exactly
the placeholders of its raw url, of its header values, and of its
captured body; every endpoint of a flat parse instead carries the raw
occurrence list of the placeholders of its path string, exactly as
re.findall returns it (not deduplicated, not sorted). -/
theorem parse_variables_shape :
    (∀ (data : Json) (fam : Fam) (t : Nat) (v : List String),
      parse_postman data = .ok (fam, t, v) →
      ∀ api ∈ apisOf fam, api.vars.Nodup ∧ List.Sorted StrLe api.vars ∧
        ∃ headerVars : List String, ∀ x, x ∈ api.vars ↔
          (x ∈ extract_variables_json api.path ∨ x ∈ headerVars ∨
           x ∈ (api.body.map extract_variables_json).getD [])) ∧
    (∀ (data : Json) (fam : Fam) (t : Nat) (v : List String),
      parse_openapi data = .ok (fam, t, v) →
      ∀ api ∈ apisOf fam, ∃ p, api.path = Json.str p ∧ api.vars = extract_variables p) := by
  constructor
  · intro data fam t v h api hapi
    rcases (parse_postman_spec h).2 api hapi with ⟨hv, hshape⟩
    rw [hshape]
    refine ⟨sortedSetOf_nodup _, sortedSetOf_sorted _, hv, fun x => ?_⟩
    rw [mem_sortedSetOf]
    simp [List.mem_append, or_assoc]
  · intro data fam t v h api hapi
    exact (parse_openapi_spec h).2 api hapi

/-- Witness for C2 amended: a one-leaf hierarchical document whose url
holds the placeholders b and a (stored deduplicated and sorted), and a
one-path flat document whose path repeats id (stored as the raw
occurrence list). -/
theorem parse_variables_shape_witness :
    (parse_postman (Json.obj [("item", Json.arr [Json.obj [("name", Json.str "A"),
        ("request", Json.obj [("url", Json.obj [("raw",
          Json.str "http://x/\x7b\x7bb\x7d\x7d/\x7b\x7ba\x7d\x7d")])])]])])
      = .ok ([("", [⟨Json.str "A", Json.str "http://x/\x7b\x7bb\x7d\x7d/\x7b\x7ba\x7d\x7d",
          ["a", "b"], none⟩])], 1, ["a", "b"])) ∧
    (∀ api ∈ apisOf [("", [(⟨Json.str "A",
        Json.str "http://x/\x7b\x7bb\x7d\x7d/\x7b\x7ba\x7d\x7d",
        ["a", "b"], none⟩ : ApiInfo)])],
      api.vars.Nodup ∧ List.Sorted StrLe api.vars ∧
        ∃ headerVars : List String, ∀ x, x ∈ api.vars ↔
          (x ∈ extract_variables_json api.path ∨ x ∈ headerVars ∨
           x ∈ (api.body.map extract_variables_json).getD [])) ∧
    (parse_openapi (Json.obj [("paths", Json.obj [("/x/\x7b\x7bid\x7d\x7d/\x7b\x7bid\x7d\x7d",
        Json.obj [("get", Json.obj [])])])])
      = .ok ([("Untagged",
          [⟨Json.str "GET /x/\x7b\x7bid\x7d\x7d/\x7b\x7bid\x7d\x7d — GET /x/\x7b\x7bid\x7d\x7d/\x7b\x7bid\x7d\x7d",
            Json.str "/x/\x7b\x7bid\x7d\x7d/\x7b\x7bid\x7d\x7d", ["id", "id"], none⟩])],
          1, ["id"])) ∧
    (∀ api ∈ apisOf [("Untagged",
        [(⟨Json.str "GET /x/\x7b\x7bid\x7d\x7d/\x7b\x7bid\x7d\x7d — GET /x/\x7b\x7bid\x7d\x7d/\x7b\x7bid\x7d\x7d",
          Json.str "/x/\x7b\x7bid\x7d\x7d/\x7b\x7bid\x7d\x7d", ["id", "id"], none⟩ : ApiInfo)])],
      ∃ p, api.path = Json.str p ∧ api.vars = extract_variables p) := by
  refine ⟨rfl, ?_, rfl, ?_⟩
  · exact parse_variables_shape.1
      (Json.obj [("item", Json.arr [Json.obj [("name", Json.str "A"),
        ("request", Json.obj [("url", Json.obj [("raw",
          Json.str "http://x/\x7b\x7bb\x7d\x7d/\x7b\x7ba\x7d\x7d")])])]])])
      _ 1 ["a", "b"] rfl
  · exact parse_variables_shape.2
      (Json.obj [("paths", Json.obj [("/x/\x7b\x7bid\x7d\x7d/\x7b\x7bid\x7d\x7d",
        Json.obj [("get", Json.obj [])])])])
      _ 1 ["id"] rfl

/-- C6: inside a recognized shape, an endpoint all of whose fields are
missing degrades to the defaults and never aborts the walk: a request
item carrying nothing but an empty request object produces the endpoint
named "Unnamed" with empty path, no variables and no body, after which
the traversal continues with the remaining sibling items unchanged; and
a flat specification operation with no tags, summary or body parses
successfully into the fixed "Untagged" group with the synthesized
default name METHOD PATH — METHOD PATH and no body. -/
theorem parsers_default_missing_fields :
    (∀ (fuel : Nat) (rest : List Json) (path : String) (st : PState),
      traverseAux (fuel + 1) (Json.obj [("request", Json.obj [])] :: rest) path st
        = traverseAux fuel rest path
            ⟨dmapAppend st.fam path ⟨Json.str "Unnamed", Json.str "", [], none⟩,
             st.all_variables, st.total + 1⟩) ∧
    (∀ p m : String,
      parse_openapi (Json.obj [("paths", Json.obj [(p, Json.obj [(m, Json.obj [])])])])
        = .ok ([("Untagged",
            [⟨Json.str (pyUpper m ++ " " ++ p ++ " — " ++ (pyUpper m ++ " " ++ p)),
              Json.str p, extract_variables p, none⟩])],
            1, sortedSetOf (extract_variables p))) := by
  exact ⟨fun fuel rest path st => rfl, fun p m => rfl⟩

/-- C8: for both parsers, the returned total equals the sum of the
lengths of the per-group endpoint sequences of the returned catalog. -/
theorem parse_total_eq_sumLens :
    (∀ (data : Json) (fam : Fam) (t : Nat) (v : List String),
      parse_postman data = .ok (fam, t, v) → t = sumLens fam) ∧
    (∀ (data : Json) (fam : Fam) (t : Nat) (v : List String),
      parse_openapi data = .ok (fam, t, v) → t = sumLens fam) :=
  ⟨fun _ _ _ _ h => (parse_postman_spec h).1, fun _ _ _ _ h => (parse_openapi_spec h).1⟩

/-- Witness for C8: a hierarchical document with one folder leaf and one
root leaf (total 2 over two groups of length one), and a flat document
with two methods under one path (total 2 in one group). -/
theorem parse_total_eq_sumLens_witness :
    (parse_postman (Json.obj [("item", Json.arr [
        Json.obj [("name", Json.str "F"), ("item", Json.arr [Json.obj [("name", Json.str "A"),
          ("request", Json.obj [])]])],
        Json.obj [("request", Json.obj [])]])])
      = .ok ([("F", [⟨Json.str "A", Json.str "", [], none⟩]),
              ("", [⟨Json.str "Unnamed", Json.str "", [], none⟩])], 2, [])) ∧
    2 = sumLens [("F", [(⟨Json.str "A", Json.str "", [], none⟩ : ApiInfo)]),
              ("", [(⟨Json.str "Unnamed", Json.str "", [], none⟩ : ApiInfo)])] ∧
    (parse_openapi (Json.obj [("paths", Json.obj [("/u", Json.obj [("get", Json.obj []),
        ("post", Json.obj [])])])])
      = .ok ([("Untagged", [⟨Json.str "GET /u — GET /u", Json.str "/u", [], none⟩,
          ⟨Json.str "POST /u — POST /u", Json.str "/u", [], none⟩])], 2, [])) ∧
    2 = sumLens [("Untagged", [(⟨Json.str "GET /u — GET /u", Json.str "/u", [], none⟩ : ApiInfo),
          (⟨Json.str "POST /u — POST /u", Json.str "/u", [], none⟩ : ApiInfo)])] := by
  refine ⟨rfl, ?_, rfl, ?_⟩
  · exact parse_total_eq_sumLens.1
      (Json.obj [("item", Json.arr [
        Json.obj [("name", Json.str "F"), ("item", Json.arr [Json.obj [("name", Json.str "A"),
          ("request", Json.obj [])]])],
        Json.obj [("request", Json.obj [])]])])
      _ 2 [] rfl
  · exact parse_total_eq_sumLens.2
      (Json.obj [("paths", Json.obj [("/u", Json.obj [("get", Json.obj []),
        ("post", Json.obj [])])])])
      _ 2 [] rfl

/-- C9 counterexample: a top-level document that is a bare number
contains neither an "item" key nor a "paths" key, yet its parse does not
yield the classified UnsupportedFormat outcome — the membership test
"item" in data raises TypeError, which the surrounding handler reports
as a generic parse error. -/
theorem shape_dispatch_int_doc_cex :
    shape_dispatch (Json.num 5)
      = ShapeOutcome.pyerror "TypeError: argument of type int is not iterable" ∧
    shape_dispatch (Json.num 5) ≠ ShapeOutcome.unsupported := by
  refine ⟨rfl, ?_⟩
  intro hc
  exact ShapeOutcome.noConfusion hc

/-- C9 amended: for every top-level document on which Python's
membership test is defined and reports both keys absent, the dispatch
yields the classified UnsupportedFormat outcome and no catalog — every
JSON object without an "item" or "paths" key, every array document with
neither string among its elements, and every string document with
neither as a substring.  Top-level documents of non-container type
(null, booleans, numbers) also hold neither key, but the membership
test "item" in data raises TypeError on them, reported as a generic
parse error rather than the classified failure. -/
theorem shape_dispatch_unsupported_no_keys :
    (∀ kvs : List (String × Json), containsKey "item" kvs = false →
      containsKey "paths" kvs = false →
      shape_dispatch (Json.obj kvs) = ShapeOutcome.unsupported) ∧
    (∀ xs : List Json, xs.any (fun x => jsonStrEq x "item") = false →
      xs.any (fun x => jsonStrEq x "paths") = false →
      shape_dispatch (Json.arr xs) = ShapeOutcome.unsupported) ∧
    (∀ s : String, strContainsSub "item".data s.data = false →
      strContainsSub "paths".data s.data = false →
      shape_dispatch (Json.str s) = ShapeOutcome.unsupported) ∧
    (shape_dispatch Json.null
        = ShapeOutcome.pyerror "TypeError: argument of type int is not iterable" ∧
     (∀ b : Bool, shape_dispatch (Json.bool b)
        = ShapeOutcome.pyerror "TypeError: argument of type int is not iterable") ∧
     (∀ n : Int, shape_dispatch (Json.num n)
        = ShapeOutcome.pyerror "TypeError: argument of type int is not iterable")) := by
  refine ⟨?_, ?_, ?_, rfl, fun b => rfl, fun n => rfl⟩
  · intro kvs h1 h2
    unfold shape_dispatch
    simp [pyContains, h1, h2]
  · intro xs h1 h2
    unfold shape_dispatch
    simp [pyContains, h1, h2]
  · intro s h1 h2
    unfold shape_dispatch
    simp [pyContains, h1, h2]

/-- Witness for C9 amended at an object document with one unrelated
key, the array document of one string, and a string document. -/
theorem shape_dispatch_unsupported_no_keys_witness :
    ((containsKey "item" [("info", Json.null)] = false ∧
      containsKey "paths" [("info", Json.null)] = false) ∧
     ([Json.str "x"].any (fun x => jsonStrEq x "item") = false ∧
      [Json.str "x"].any (fun x => jsonStrEq x "paths") = false) ∧
     (strContainsSub "item".data "hello".data = false ∧
      strContainsSub "paths".data "hello".data = false)) ∧
    shape_dispatch (Json.obj [("info", Json.null)]) = ShapeOutcome.unsupported ∧
    shape_dispatch (Json.arr [Json.str "x"]) = ShapeOutcome.unsupported ∧
    shape_dispatch (Json.str "hello") = ShapeOutcome.unsupported :=
  ⟨⟨⟨by decide, by decide⟩, ⟨by decide, by decide⟩, ⟨by decide, by decide⟩⟩,
    shape_dispatch_unsupported_no_keys.1 [("info", Json.null)] (by decide) (by decide),
    shape_dispatch_unsupported_no_keys.2.1 [Json.str "x"] (by decide) (by decide),
    shape_dispatch_unsupported_no_keys.2.2.1 "hello" (by decide) (by decide)⟩

/-- C10: the hierarchical shape has priority — a document holding both
an "item" key and a "paths" key is handed to the hierarchical parser
(the flat branch is never consulted); and within the walk, an item
holding both a "request" key and an "item" key is processed as a request
leaf, its nested items never traversed: the walk's outcome does not
depend on the "item" value of such an item at all. -/
theorem shape_dispatch_hierarchical_priority :
    (∀ kvs : List (String × Json), containsKey "item" kvs = true →
        containsKey "paths" kvs = true →
        shape_dispatch (Json.obj kvs) = parserOutcome (parse_postman (Json.obj kvs))) ∧
    (∀ (fuel : Nat) (nmJ reqJ childJ : Json) (rest : List Json) (path : String) (st : PState),
        traverseAux fuel
            (Json.obj [("name", nmJ), ("request", reqJ), ("item", childJ)] :: rest) path st
          = traverseAux fuel (Json.obj [("name", nmJ), ("request", reqJ)] :: rest) path st) := by
  constructor
  · intro kvs h1 h2
    unfold shape_dispatch
    simp [pyContains, h1]
  · intro fuel nmJ reqJ childJ rest path st
    cases fuel with
    | zero => rfl
    | succ fuel => rfl

/-- Witness for C10 at a document holding both keys, whose "item" value
is an empty list: it is parsed by the hierarchical parser into the
empty catalog. -/
theorem shape_dispatch_hierarchical_priority_witness :
    (containsKey "item" [("item", Json.arr []), ("paths", Json.obj [])] = true ∧
     containsKey "paths" [("item", Json.arr []), ("paths", Json.obj [])] = true) ∧
    shape_dispatch (Json.obj [("item", Json.arr []), ("paths", Json.obj [])])
      = parserOutcome (parse_postman (Json.obj [("item", Json.arr []), ("paths", Json.obj [])])) :=
  ⟨⟨by decide, by decide⟩,
    shape_dispatch_hierarchical_priority.1 [("item", Json.arr []), ("paths", Json.obj [])]
      (by decide) (by decide)⟩

end ApiCounter
